import Mathlib

/-!
Verification of the fringe-pattern generator and display sequencer in
src/assignment_3/display.py.

The development has two parts, mirroring the two components of the program:

* the pattern generator (`generate_sinusoidal_fringe_pattern`, `render_fringe`,
  `render_one`, `generate_phase_shifted_images`, `prepare_images`): pure
  numerical code over numpy arrays, embedded here as real-valued grids
  (`RealGrid`) and 8-bit images (`FringeImage`); fallible paths (the
  ValueError on a bad orientation token, the ZeroDivisionError when the
  horizontal branch divides by a zero width) are embedded as `Except`;

* the display controller (`ControllerState`, `start_display`, `show_image`,
  `show_next_image`, `keyPressEvent`): the Qt window state relevant to
  sequencing, embedded as explicit state passing, with the single-threaded Qt
  event loop embedded as a fold of events (`processEvents`). A timer tick is
  delivered only while the timer is armed, matching Qt timers: `stop` removes
  the timer source, and `start` with a negative timeout is rejected and does
  not arm the timer.
-/

open Real

namespace FringeDisplay

/-- A height by width array of real values (a numpy float array): the phase
maps and the pre-quantisation intensity images. Entries are a total function
of the row and column index; only indices below the stored bounds correspond
to array cells. -/
structure RealGrid where
  height : ℕ
  width : ℕ
  val : ℕ → ℕ → ℝ

/-- A height by width array of 8-bit intensity samples (a numpy uint8 array). -/
structure FringeImage where
  height : ℕ
  width : ℕ
  pixel : ℕ → ℕ → ℕ

/-- Value at index `i` of `np.linspace(start, stop, num)`: for `num ≥ 2` the
samples are `start + i * (stop - start) / (num - 1)`; for `num = 1` the single
sample is `start`; for `num = 0` the array is empty and no index is in range. -/
noncomputable def linspace (start stop : ℝ) (num : ℕ) (i : ℕ) : ℝ :=
  if num ≤ 1 then start else start + (stop - start) * i / ((num : ℝ) - 1)

/-- Lines 44-71: `generate_sinusoidal_fringe_pattern(self, shape, amplitude,
background, orientation)`. Returns `(initial_image, true_phase)`. The vertical
branch lays `np.linspace(0, 2π, width)` across every row; the horizontal
branch computes `scaled_height = height/width * 2π` (a ZeroDivisionError when
`width = 0`, embedded as the error case) and lays the shifted, centred
linspace down every column; any other orientation token raises ValueError. -/
noncomputable def generate_sinusoidal_fringe_pattern (shape : ℕ × ℕ)
    (amplitude : ℝ) (background : ℝ) (orientation : String) :
    Except String (RealGrid × RealGrid) :=
  let height := shape.1
  let width := shape.2
  if orientation = "vertical" then
    let true_phase : RealGrid := ⟨height, width, fun _ j => linspace 0 (2 * π) width j⟩
    let initial_image : RealGrid :=
      ⟨height, width, fun i j => background + amplitude * Real.cos (true_phase.val i j)⟩
    Except.ok (initial_image, true_phase)
  else if orientation = "horizontal" then
    if width = 0 then Except.error "ZeroDivisionError: division by zero"
    else
      let phase_shift : ℝ := π / 2
      let scaled_height : ℝ := (height : ℝ) / (width : ℝ) * (2 * π)
      let initial_y_offset : ℝ := (2 * π - scaled_height) / 2
      let true_phase : RealGrid :=
        ⟨height, width, fun i _ =>
          linspace (initial_y_offset - phase_shift)
            (scaled_height + initial_y_offset - phase_shift) height i⟩
      let initial_image : RealGrid :=
        ⟨height, width, fun i j => background + amplitude * Real.cos (true_phase.val i j)⟩
      Except.ok (initial_image, true_phase)
  else
    Except.error "Orientation must be vertical or horizontal"

/-- `astype(np.uint8)` on the nonnegative floats produced here: truncation of
the fractional part (floor, since the value is nonnegative) and reduction into
the 8-bit range. -/
noncomputable def np_uint8 (r : ℝ) : ℕ :=
  (Int.toNat ⌊r⌋) % 256

/-- Lines 84-95 of `generate_phase_shifted_images`, the per-shift body after
the base pattern exists: `shifted_phase = true_phase + phase_shift`,
`shifted_image = 1.0 + 1.0 * np.cos(shifted_phase)`, then
`(shifted_image * 127.5).astype(np.uint8)`. -/
noncomputable def render_fringe (true_phase : RealGrid) (phase_shift : ℝ) : FringeImage :=
  ⟨true_phase.height, true_phase.width,
    fun i j => np_uint8 ((1 + 1 * Real.cos (true_phase.val i j + phase_shift)) * 127.5)⟩

/-- One iteration of the loop in `generate_phase_shifted_images` (lines
77-97): regenerate the base pattern with amplitude 1.0 and background 1.0,
then render with the given shift. -/
noncomputable def render_one (shape : ℕ × ℕ) (orientation : String) (phase_shift : ℝ) :
    Except String FringeImage :=
  match generate_sinusoidal_fringe_pattern shape 1 1 orientation with
  | Except.error e => Except.error e
  | Except.ok p => Except.ok (render_fringe p.2 phase_shift)

/-- Line 74: `phase_shifts = [0, np.pi/2, np.pi, 3*np.pi/2]`. -/
noncomputable def phase_shifts : List ℝ :=
  [0, π / 2, π, 3 * π / 2]

/-- The accumulation loop of `generate_phase_shifted_images` over a list of
shifts: the first raised error aborts, otherwise images append in order. -/
noncomputable def render_list (shape : ℕ × ℕ) (orientation : String) :
    List ℝ → Except String (List FringeImage)
  | [] => Except.ok []
  | s :: rest =>
    match render_one shape orientation s with
    | Except.error e => Except.error e
    | Except.ok img =>
      match render_list shape orientation rest with
      | Except.error e => Except.error e
      | Except.ok imgs => Except.ok (img :: imgs)

/-- Lines 73-99: `generate_phase_shifted_images(self, shape, orientation)`. -/
noncomputable def generate_phase_shifted_images (shape : ℕ × ℕ) (orientation : String) :
    Except String (List FringeImage) :=
  render_list shape orientation phase_shifts

/-- Lines 101-106: `prepare_images`: vertical images then horizontal images,
both at the full screen shape `(screen_height, screen_width)`. -/
noncomputable def prepare_images (screen_height screen_width : ℕ) :
    Except String (List FringeImage) :=
  match generate_phase_shifted_images (screen_height, screen_width) "vertical" with
  | Except.error e => Except.error e
  | Except.ok vertical_images =>
    match generate_phase_shifted_images (screen_height, screen_width) "horizontal" with
    | Except.error e => Except.error e
    | Except.ok horizontal_images => Except.ok (vertical_images ++ horizontal_images)

/-- True when the call raised (ValueError or ZeroDivisionError). -/
def isErr {α : Type} (r : Except String α) : Bool :=
  match r with
  | Except.error _ => true
  | Except.ok _ => false

/-- The `true_phase` component of a generation result at one cell; 0 when the
call raised (no phase map is produced on failure). -/
noncomputable def phaseAt (r : Except String (RealGrid × RealGrid)) (i j : ℕ) : ℝ :=
  match r with
  | Except.ok p => p.2.val i j
  | Except.error _ => 0

/-- Placeholder image, used only to read lists and results totally. -/
def dfltImage : FringeImage :=
  ⟨0, 0, fun _ _ => 0⟩

/-- The image list of a successful `prepare_images` run; empty on failure. -/
def imagesOf (r : Except String (List FringeImage)) : List FringeImage :=
  match r with
  | Except.ok l => l
  | Except.error _ => []

/-- The image of a successful `render_one` call. -/
def imageOf (r : Except String FringeImage) : FringeImage :=
  match r with
  | Except.ok img => img
  | Except.error _ => dfltImage


/-- The window state of `FringePatternWindow` that the sequencing logic reads
and writes: the current index (a Python int), the number of prepared images
(`len(self.all_images)`; the images themselves are immutable once built, so
the log below records indices), the stored interval, the QTimer (armed flag
and its millisecond interval), whether the window was closed, and the log of
indices actually handed to the display surface by `show_image`. -/
structure ControllerState where
  current_image_index : ℤ
  numImages : ℕ
  interval_seconds : ℚ
  timerArmed : Bool
  timerIntervalMs : ℤ
  closed : Bool
  presented : List ℤ
  deriving DecidableEq

/-- `__init__` (lines 36-42) followed by `prepare_images` having stored `n`
images: index 0, default interval 2.0, timer created but not started. -/
def initState (n : ℕ) : ControllerState :=
  ⟨0, n, 2, false, 0, false, []⟩

/-- Python `int()` applied to a rational: truncation toward zero. -/
def truncToInt (q : ℚ) : ℤ :=
  if 0 ≤ q then ⌊q⌋ else -⌊-q⌋

/-- `QTimer.start(msec)`: Qt rejects negative timeouts (the timer is not
started); otherwise the timer is armed with the given period. -/
def timer_start (msec : ℤ) (s : ControllerState) : ControllerState :=
  if msec < 0 then s
  else { s with timerArmed := true, timerIntervalMs := msec }

/-- `QTimer.stop()`. -/
def timer_stop (s : ControllerState) : ControllerState :=
  { s with timerArmed := false }

/-- Lines 115-128: `show_image(self, index)`: only an index in
`[0, len(self.all_images))` is converted and handed to the label; any other
index falls through the guard and nothing at all happens. -/
def show_image (index : ℤ) (s : ControllerState) : ControllerState :=
  if 0 ≤ index ∧ index < (s.numImages : ℤ) then
    { s with presented := s.presented ++ [index] }
  else s

/-- Lines 108-113: `start_display(self, interval_seconds)`: store the
interval, show image 0 (index reset to 0), then
`self.timer.start(int(self.interval_seconds * 1000))`. -/
def start_display (interval_seconds : ℚ) (s : ControllerState) : ControllerState :=
  let s1 := { s with interval_seconds := interval_seconds, current_image_index := 0 }
  let s2 := show_image s1.current_image_index s1
  timer_start (truncToInt (interval_seconds * 1000)) s2

/-- Lines 130-137: the timer callback `show_next_image`: increment the index;
past the end, stop the timer and close the window, otherwise show the image
at the new index. -/
def show_next_image (s : ControllerState) : ControllerState :=
  let s1 := { s with current_image_index := s.current_image_index + 1 }
  if (s1.numImages : ℤ) ≤ s1.current_image_index then
    { timer_stop s1 with closed := true }
  else
    show_image s1.current_image_index s1

/-- The keys `keyPressEvent` (lines 139-142) distinguishes. -/
inductive Key : Type
  | key_Q : Key
  | key_Escape : Key
  | otherKey : Key
  deriving DecidableEq

/-- Lines 139-142: `keyPressEvent`: on Q or Escape, stop the timer and close
the window; any other key does nothing. -/
def keyPressEvent (key : Key) (s : ControllerState) : ControllerState :=
  if key = Key.key_Q ∨ key = Key.key_Escape then
    { timer_stop s with closed := true }
  else s

/-- The two event sources of the single-threaded Qt event loop: a timer
timeout and a key press. -/
inductive Event : Type
  | timerTimeout : Event
  | keyPress : Key → Event
  deriving DecidableEq

/-- Delivery of one queued event: a timeout reaches `show_next_image` only
while the timer is armed (stopping a QTimer removes its pending timeout from
the queue); a key press always reaches `keyPressEvent`. -/
def handleEvent (s : ControllerState) (e : Event) : ControllerState :=
  match e with
  | Event.timerTimeout => if s.timerArmed then show_next_image s else s
  | Event.keyPress k => keyPressEvent k s

/-- The event loop: process a queue of events one at a time, in order. -/
def processEvents (evs : List Event) (s : ControllerState) : ControllerState :=
  evs.foldl handleEvent s

/-- One timer tick delivered through the event loop. -/
def tick (s : ControllerState) : ControllerState :=
  handleEvent s Event.timerTimeout

/-- `n` timer ticks in a row. -/
def ticksN (n : ℕ) (s : ControllerState) : ControllerState :=
  tick^[n] s

/-- The run scenario of `main` with the 8 prepared images: the state right
after `start_display(interval)`. -/
def startedState (interval : ℚ) : ControllerState :=
  start_display interval (initState 8)

/-- Lines 152-156 of `main`: `float(input(...))` with the ValueError handler;
`none` stands for a line that does not parse as a float, and the parsed value
is used exactly as supplied otherwise. -/
def read_interval (user_input : Option ℚ) : ℚ :=
  match user_input with
  | some v => v
  | none => 2

/-- The rendering rule exactly as the specification words it: round, then
clamp to [0, 255]. Stated for comparison with the code, which truncates via
`astype(np.uint8)` instead. -/
noncomputable def spec_round_intensity (phase : ℝ) (phase_shift : ℝ) : ℤ :=
  min 255 (max 0 (round (127.5 * (1 + Real.cos (phase + phase_shift)))))

end FringeDisplay

namespace FringeDisplay

theorem np_uint8_le (r : ℝ) : np_uint8 r ≤ 255 := by
  have h : np_uint8 r < 256 := Nat.mod_lt _ (by norm_num)
  omega

theorem render_one_vertical (H W : ℕ) (s : ℝ) :
    render_one (H, W) "vertical" s =
      Except.ok (render_fringe ⟨H, W, fun _ j => linspace 0 (2 * π) W j⟩ s) := rfl

theorem render_one_horizontal (H W : ℕ) (hW : W ≠ 0) (s : ℝ) :
    render_one (H, W) "horizontal" s =
      Except.ok (render_fringe
        ⟨H, W, fun i _ =>
          linspace ((2 * π - (H : ℝ) / (W : ℝ) * (2 * π)) / 2 - π / 2)
            ((H : ℝ) / (W : ℝ) * (2 * π) + (2 * π - (H : ℝ) / (W : ℝ) * (2 * π)) / 2 - π / 2)
            H i⟩ s) := by
  unfold render_one generate_sinusoidal_fringe_pattern
  rw [if_neg (by decide), if_pos rfl, if_neg hW]

theorem prepare_images_eq (H W : ℕ) (hW : W ≠ 0) :
    prepare_images H W = Except.ok
      [imageOf (render_one (H, W) "vertical" 0),
       imageOf (render_one (H, W) "vertical" (π / 2)),
       imageOf (render_one (H, W) "vertical" π),
       imageOf (render_one (H, W) "vertical" (3 * π / 2)),
       imageOf (render_one (H, W) "horizontal" 0),
       imageOf (render_one (H, W) "horizontal" (π / 2)),
       imageOf (render_one (H, W) "horizontal" π),
       imageOf (render_one (H, W) "horizontal" (3 * π / 2))] := by
  unfold prepare_images generate_phase_shifted_images phase_shifts
  simp only [render_list, render_one_vertical H W, render_one_horizontal H W hW, imageOf]
  rfl

/-- C1: for every valid shape (height ≥ 2, width ≥ 2), building the sequence
succeeds with exactly 8 images, each of shape (height, width) with every pixel
value at most 255 (and at least 0, being a natural number); images 0..3 are
the vertical orientation rendered with shifts [0, π/2, π, 3π/2] in that order,
and images 4..7 the horizontal orientation with the same ordered shifts. -/
theorem build_sequence_c1 (H W : ℕ) (hH : 2 ≤ H) (hW : 2 ≤ W) :
    isErr (prepare_images H W) = false ∧
    (imagesOf (prepare_images H W)).length = 8 ∧
    (∀ img ∈ imagesOf (prepare_images H W),
      img.height = H ∧ img.width = W ∧ ∀ y x, img.pixel y x ≤ 255) ∧
    (∀ k, k < 4 →
      (imagesOf (prepare_images H W)).getD k dfltImage
          = imageOf (render_one (H, W) "vertical" (phase_shifts.getD k 0)) ∧
      (imagesOf (prepare_images H W)).getD (4 + k) dfltImage
          = imageOf (render_one (H, W) "horizontal" (phase_shifts.getD k 0))) := by
  have hW0 : W ≠ 0 := by omega
  rw [prepare_images_eq H W hW0]
  refine ⟨rfl, rfl, ?_, ?_⟩
  · intro img hmem
    have hv : ∀ s, (imageOf (render_one (H, W) "vertical" s)).height = H ∧
        (imageOf (render_one (H, W) "vertical" s)).width = W ∧
        ∀ y x, (imageOf (render_one (H, W) "vertical" s)).pixel y x ≤ 255 := by
      intro s
      rw [render_one_vertical H W s]
      exact ⟨rfl, rfl, fun y x => np_uint8_le _⟩
    have hh : ∀ s, (imageOf (render_one (H, W) "horizontal" s)).height = H ∧
        (imageOf (render_one (H, W) "horizontal" s)).width = W ∧
        ∀ y x, (imageOf (render_one (H, W) "horizontal" s)).pixel y x ≤ 255 := by
      intro s
      rw [render_one_horizontal H W hW0 s]
      exact ⟨rfl, rfl, fun y x => np_uint8_le _⟩
    simp only [imagesOf, List.mem_cons, List.not_mem_nil, or_false] at hmem
    rcases hmem with h | h | h | h | h | h | h | h <;> rw [h]
    · exact hv 0
    · exact hv (π / 2)
    · exact hv π
    · exact hv (3 * π / 2)
    · exact hh 0
    · exact hh (π / 2)
    · exact hh π
    · exact hh (3 * π / 2)
  · intro k hk
    interval_cases k <;> exact ⟨rfl, rfl⟩

/-- C1 witness: at the concrete shape (2, 2) the sequence has 8 images and
image 4 is the horizontal pattern with shift 0. -/
theorem build_sequence_c1_witness :
    (imagesOf (prepare_images 2 2)).length = 8 ∧
    (imagesOf (prepare_images 2 2)).getD 4 dfltImage
      = imageOf (render_one (2, 2) "horizontal" (phase_shifts.getD 0 0)) :=
  ⟨(build_sequence_c1 2 2 (by norm_num) (by norm_num)).2.1,
   ((build_sequence_c1 2 2 (by norm_num) (by norm_num)).2.2.2 0 (by norm_num)).2⟩

/-- C2 counterexample: at a cell with phase 0 and shift π/2, the intensity is
127.5 before quantisation; the code truncates it to 127, while the claimed
rule round(127.5 * (1 + cos(phase + shift))) clamped to [0, 255] gives 128. -/
theorem render_rule_c2_counterexample :
    (render_fringe ⟨1, 1, fun _ _ => 0⟩ (π / 2)).pixel 0 0 = 127 ∧
    spec_round_intensity 0 (π / 2) = 128 := by
  constructor
  · show np_uint8 ((1 + 1 * Real.cos (0 + π / 2)) * 127.5) = 127
    rw [zero_add, Real.cos_pi_div_two]
    have h : ((1 : ℝ) + 1 * 0) * 127.5 = 127.5 := by norm_num
    rw [h]
    have hf : ⌊(127.5 : ℝ)⌋ = 127 := by
      rw [Int.floor_eq_iff]
      norm_num
    rw [np_uint8, hf]
    decide
  · rw [spec_round_intensity, zero_add, Real.cos_pi_div_two]
    have h : (127.5 : ℝ) * (1 + 0) = 127.5 := by norm_num
    rw [h, round_eq]
    have hf : ⌊(127.5 : ℝ) + 1 / 2⌋ = 128 := by
      rw [Int.floor_eq_iff]
      norm_num
    rw [hf]
    decide

/-- C2 amended: for every phase map and scalar phase shift, each pixel of the
rendered fringe image equals the floor (truncation, via astype(np.uint8)) of
127.5 * (1 + cos(phase + shift)); the value always lies in [0, 255] because
the pre-quantisation intensity does, so no wrap-around or clamping occurs. -/
theorem render_rule_c2_amended (true_phase : RealGrid) (phase_shift : ℝ) (y x : ℕ) :
    ((render_fringe true_phase phase_shift).pixel y x : ℤ)
        = ⌊127.5 * (1 + Real.cos (true_phase.val y x + phase_shift))⌋ ∧
    (render_fringe true_phase phase_shift).pixel y x ≤ 255 := by
  set t := Real.cos (true_phase.val y x + phase_shift) with ht
  have hc1 : t ≤ 1 := Real.cos_le_one _
  have hc0 : -1 ≤ t := Real.neg_one_le_cos _
  have hval : (render_fringe true_phase phase_shift).pixel y x
      = np_uint8 ((1 + 1 * t) * 127.5) := rfl
  have h0 : (0 : ℝ) ≤ (1 + 1 * t) * 127.5 := by nlinarith
  have h255 : (1 + 1 * t) * 127.5 ≤ 255 := by nlinarith
  have hf0 : 0 ≤ ⌊(1 + 1 * t) * 127.5⌋ := Int.floor_nonneg.mpr h0
  have hf255 : ⌊(1 + 1 * t) * 127.5⌋ ≤ 255 := by
    have := Int.floor_le_floor (α := ℝ) h255
    simpa using this
  have hmod : np_uint8 ((1 + 1 * t) * 127.5) = Int.toNat ⌊(1 + 1 * t) * 127.5⌋ := by
    rw [np_uint8]
    exact Nat.mod_eq_of_lt (by omega)
  constructor
  · rw [hval, hmod]
    have hcomm : (127.5 : ℝ) * (1 + t) = (1 + 1 * t) * 127.5 := by ring
    rw [hcomm]
    exact Int.toNat_of_nonneg hf0
  · rw [hval, hmod]
    omega

/-- C3: the vertical phase map row is x/(W-1) * 2π at column x for W > 1
(0 at column 0, 2π at column W-1, non-decreasing left to right), and is
identically 0 when the width is 1. -/
theorem vertical_phase_c3 (H W y x : ℕ) (hW : 1 < W) (hx : x < W) :
    phaseAt (generate_sinusoidal_fringe_pattern (H, W) 1 1 "vertical") y x
        = (x : ℝ) / ((W : ℝ) - 1) * (2 * π) ∧
    phaseAt (generate_sinusoidal_fringe_pattern (H, W) 1 1 "vertical") y 0 = 0 ∧
    phaseAt (generate_sinusoidal_fringe_pattern (H, W) 1 1 "vertical") y (W - 1) = 2 * π ∧
    (∀ x₁ x₂ : ℕ, x₁ ≤ x₂ →
      phaseAt (generate_sinusoidal_fringe_pattern (H, W) 1 1 "vertical") y x₁
        ≤ phaseAt (generate_sinusoidal_fringe_pattern (H, W) 1 1 "vertical") y x₂) ∧
    (∀ G y₂ x₂ : ℕ,
      phaseAt (generate_sinusoidal_fringe_pattern (G, 1) 1 1 "vertical") y₂ x₂ = 0) := by
  have hW1 : ¬ W ≤ 1 := by omega
  have hWpos : (0 : ℝ) < (W : ℝ) - 1 := by
    have : (1 : ℝ) < (W : ℝ) := by exact_mod_cast hW
    linarith
  have hval : ∀ j : ℕ,
      phaseAt (generate_sinusoidal_fringe_pattern (H, W) 1 1 "vertical") y j
        = linspace 0 (2 * π) W j := fun j => rfl
  have hls : ∀ j : ℕ, linspace 0 (2 * π) W j = (j : ℝ) / ((W : ℝ) - 1) * (2 * π) := by
    intro j
    rw [linspace, if_neg hW1]
    ring
  refine ⟨?_, ?_, ?_, ?_, ?_⟩
  · rw [hval, hls]
  · rw [hval, hls]
    norm_num
  · rw [hval, hls]
    have hcast : ((W - 1 : ℕ) : ℝ) = (W : ℝ) - 1 := by
      rw [Nat.cast_sub (by omega : 1 ≤ W), Nat.cast_one]
    rw [hcast, div_self (ne_of_gt hWpos), one_mul]
  · intro x₁ x₂ h12
    rw [hval, hval, hls, hls]
    have hc : (x₁ : ℝ) ≤ (x₂ : ℝ) := by exact_mod_cast h12
    have hpi : (0 : ℝ) ≤ 2 * π := by positivity
    apply mul_le_mul_of_nonneg_right _ hpi
    exact (div_le_div_iff_of_pos_right hWpos).mpr hc
  · intro G y₂ x₂
    show linspace 0 (2 * π) 1 x₂ = 0
    rw [linspace, if_pos (by norm_num)]

/-- C3 witness: at shape (2, 3) the vertical phase at row 0, column 2 (the
last column) is 2π. -/
theorem vertical_phase_c3_witness :
    phaseAt (generate_sinusoidal_fringe_pattern (2, 3) 1 1 "vertical") 0 2 = 2 * π := by
  have h := (vertical_phase_c3 2 3 0 2 (by norm_num) (by norm_num)).1
  rw [h]
  norm_num

/-- C4: for H > 1 and W > 0, the horizontal phase map at row y equals
offset - π/2 + y/(H-1) * scaled, with scaled = H/W * 2π and
offset = (2π - scaled)/2, identically across all columns of the row. -/
theorem horizontal_phase_c4 (H W y : ℕ) (hH : 1 < H) (hW : 0 < W) (hy : y < H) :
    (∀ x : ℕ,
      phaseAt (generate_sinusoidal_fringe_pattern (H, W) 1 1 "horizontal") y x
        = (2 * π - (H : ℝ) / (W : ℝ) * (2 * π)) / 2 - π / 2
            + (y : ℝ) / ((H : ℝ) - 1) * ((H : ℝ) / (W : ℝ) * (2 * π))) ∧
    (∀ x₁ x₂ : ℕ,
      phaseAt (generate_sinusoidal_fringe_pattern (H, W) 1 1 "horizontal") y x₁
        = phaseAt (generate_sinusoidal_fringe_pattern (H, W) 1 1 "horizontal") y x₂) := by
  have hW0 : W ≠ 0 := by omega
  have hH1 : ¬ H ≤ 1 := by omega
  have hval : ∀ x : ℕ,
      phaseAt (generate_sinusoidal_fringe_pattern (H, W) 1 1 "horizontal") y x
        = linspace ((2 * π - (H : ℝ) / (W : ℝ) * (2 * π)) / 2 - π / 2)
            ((H : ℝ) / (W : ℝ) * (2 * π) + (2 * π - (H : ℝ) / (W : ℝ) * (2 * π)) / 2 - π / 2)
            H y := by
    intro x
    unfold phaseAt generate_sinusoidal_fringe_pattern
    rw [if_neg (by decide), if_pos rfl, if_neg hW0]
  have hmain : ∀ x : ℕ,
      phaseAt (generate_sinusoidal_fringe_pattern (H, W) 1 1 "horizontal") y x
        = (2 * π - (H : ℝ) / (W : ℝ) * (2 * π)) / 2 - π / 2
            + (y : ℝ) / ((H : ℝ) - 1) * ((H : ℝ) / (W : ℝ) * (2 * π)) := by
    intro x
    rw [hval x, linspace, if_neg hH1]
    ring
  exact ⟨hmain, fun x₁ x₂ => (hmain x₁).trans (hmain x₂).symm⟩

/-- C4 witness: at shape (2, 2), row 1, the horizontal phase is
0 - π/2 + 1 * (2π) = 3π/2. -/
theorem horizontal_phase_c4_witness :
    phaseAt (generate_sinusoidal_fringe_pattern (2, 2) 1 1 "horizontal") 1 0 = 3 * π / 2 := by
  have h := (horizontal_phase_c4 2 2 1 (by norm_num) (by norm_num) (by norm_num)).1 0
  rw [h]
  push_cast
  ring

/-- C5 counterexample: with shape (2, 0) — a non-positive width — and the
vertical orientation, generation does not signal any failure: the code never
validates the dimensions, and numpy happily builds a (2, 0) empty pattern.
The claim requires a failure whenever a dimension is ≤ 0. -/
theorem generation_error_c5_counterexample :
    isErr (generate_sinusoidal_fringe_pattern (2, 0) 1 1 "vertical") = false := rfl

/-- C5 amended: generation signals a failure if and only if the orientation is
not one of the two recognized tokens (the explicit ValueError), or the
orientation is horizontal and the width is zero (the ZeroDivisionError in
scaled_height = height/width * 2π). Dimensions are never validated: a zero
height, or a zero width with the vertical orientation, silently yields an
empty pattern. On failure no image or phase map is produced (the error case
carries nothing). -/
theorem generation_error_c5_amended (H W : ℕ) (o : String) :
    isErr (generate_sinusoidal_fringe_pattern (H, W) 1 1 o) = true ↔
      (o ≠ "vertical" ∧ o ≠ "horizontal") ∨ (o = "horizontal" ∧ W = 0) := by
  have hvh : ("vertical" : String) ≠ "horizontal" := by decide
  rw [generate_sinusoidal_fringe_pattern]
  by_cases h1 : o = "vertical"
  · rw [if_pos h1]
    subst h1
    simp [isErr, hvh]
  · rw [if_neg h1]
    by_cases h2 : o = "horizontal"
    · subst h2
      rw [if_pos rfl]
      by_cases h3 : W = 0
      · rw [if_pos h3]
        simp [isErr, h3]
      · rw [if_neg h3]
        simp [isErr, h1, h3]
    · rw [if_neg h2]
      simp [isErr, h1, h2]

theorem startedState_eq (interval : ℚ) (h : 0 < interval) :
    startedState interval =
      ⟨0, 8, interval, true, truncToInt (interval * 1000), false, [0]⟩ := by
  have hq : (0 : ℚ) ≤ interval * 1000 := by positivity
  have hfl : ¬ truncToInt (interval * 1000) < 0 := by
    rw [truncToInt, if_pos hq]
    simp only [not_lt]
    exact Int.floor_nonneg.mpr hq
  unfold startedState start_display initState show_image timer_start
  dsimp only
  rw [if_neg hfl, if_pos (by norm_num)]
  rfl

theorem ticksN_startedState (interval : ℚ) (h : 0 < interval) (k : ℕ) (hk : k ≤ 7) :
    ticksN k (startedState interval) =
      ⟨(k : ℤ), 8, interval, true, truncToInt (interval * 1000), false,
        (List.range (k + 1)).map Int.ofNat⟩ := by
  induction k with
  | zero =>
    rw [ticksN, Function.iterate_zero_apply, startedState_eq interval h]
    rfl
  | succ n ih =>
    have hn : n ≤ 7 := by omega
    have hstep := ih hn
    rw [ticksN, Function.iterate_succ_apply']
    rw [show tick^[n] (startedState interval) = ticksN n (startedState interval) from rfl]
    rw [hstep, tick, handleEvent]
    rw [if_pos rfl, show_next_image]
    dsimp only
    rw [if_neg (by omega), show_image]
    dsimp only
    rw [if_pos (by constructor <;> omega)]
    simp only [ControllerState.mk.injEq, and_true, true_and]
    constructor
    · omega
    · conv_rhs => rw [List.range_succ]
      rw [List.map_append]
      simp

theorem handleEvent_not_armed (s : ControllerState) (e : Event)
    (h : s.timerArmed = false) :
    (handleEvent s e).timerArmed = false ∧ (handleEvent s e).presented = s.presented := by
  cases e with
  | timerTimeout =>
    rw [handleEvent, h]
    exact ⟨h, rfl⟩
  | keyPress k =>
    rw [handleEvent, keyPressEvent]
    by_cases hk : k = Key.key_Q ∨ k = Key.key_Escape
    · rw [if_pos hk]
      exact ⟨rfl, rfl⟩
    · rw [if_neg hk]
      exact ⟨h, rfl⟩

theorem processEvents_not_armed (evs : List Event) (s : ControllerState)
    (h : s.timerArmed = false) :
    (processEvents evs s).presented = s.presented ∧
    (processEvents evs s).timerArmed = false := by
  induction evs generalizing s with
  | nil => exact ⟨rfl, h⟩
  | cons e rest ih =>
    obtain ⟨h1, h2⟩ := handleEvent_not_armed s e h
    have hrec := ih (handleEvent s e) h1
    rw [processEvents, List.foldl_cons]
    exact ⟨(hrec.1).trans h2, hrec.2⟩


theorem start_display_neg_eq :
    start_display (-1) (initState 8) = ⟨0, 8, -1, false, 0, false, [0]⟩ := by
  have hfloor : ⌊((1000 : ℚ))⌋ = 1000 := by
    rw [Int.floor_eq_iff]
    norm_num
  have hm : truncToInt ((-1 : ℚ) * 1000) = -1000 := by
    rw [truncToInt, if_neg (by norm_num)]
    rw [show (-((-1 : ℚ) * 1000)) = 1000 by norm_num, hfloor]
  unfold start_display initState show_image timer_start
  dsimp only
  rw [hm, if_pos (by norm_num : (-1000 : ℤ) < 0), if_pos (by norm_num)]
  rfl

/-- C6 counterexample: a parseable interval of -1 is not replaced by the
default. It reaches `timer.start(-1000)`, which Qt rejects, so no timer is
armed and one queued tick presents nothing more — while interval 2.0 arms the
timer and the same tick presents image 1. The two runs are not identical. -/
theorem interval_fallback_c6_counterexample :
    read_interval (some (-1)) = -1 ∧
    (start_display (-1) (initState 8)).timerArmed = false ∧
    (start_display 2 (initState 8)).timerArmed = true ∧
    (processEvents [Event.timerTimeout] (start_display (-1) (initState 8))).presented = [0] ∧
    (processEvents [Event.timerTimeout] (start_display 2 (initState 8))).presented = [0, 1] := by
  have hneg := start_display_neg_eq
  have hpos := startedState_eq 2 (by norm_num)
  have htick := ticksN_startedState 2 (by norm_num) 1 (by norm_num)
  refine ⟨rfl, by rw [hneg], ?_, ?_, ?_⟩
  · show (startedState 2).timerArmed = true
    rw [hpos]
  · show (handleEvent (start_display (-1) (initState 8)) Event.timerTimeout).presented = [0]
    rw [hneg]
    rfl
  · show (ticksN 1 (startedState 2)).presented = [0, 1]
    rw [htick]
    rfl

/-- C6 amended: only an unparseable interval is replaced by the default of
2.0 seconds at the input boundary; a parseable non-positive interval such as
-1 is passed through unchanged to `start_display`, where the negative
millisecond timeout leaves the timer unarmed, so image 0 is presented and no
further image ever is — not the behaviour of interval 2.0. -/
theorem interval_fallback_c6_amended :
    read_interval none = 2 ∧
    (∀ q : ℚ, read_interval (some q) = q) ∧
    (start_display (-1) (initState 8)).timerArmed = false ∧
    (start_display (-1) (initState 8)).presented = [0] ∧
    ∀ evs : List Event,
      (processEvents evs (start_display (-1) (initState 8))).presented = [0] := by
  have harm : (start_display (-1) (initState 8)).timerArmed = false := by
    rw [start_display_neg_eq]
  have hpres : (start_display (-1) (initState 8)).presented = [0] := by
    rw [start_display_neg_eq]
  refine ⟨rfl, fun q => rfl, harm, hpres, ?_⟩
  intro evs
  exact ((processEvents_not_armed evs _ harm).1).trans hpres

/-- C7: starting the controller presents image 0 immediately with index 0 and
arms the timer; after k ≤ 7 ticks the index is k and exactly the indices
0..k have been presented, in order, with the timer still armed; after exactly
8 ticks the indices 0..7 have each been presented exactly once in increasing
order and the controller is stopped: timer disarmed and window closed. -/
theorem controller_run_c7 (interval : ℚ) (h : 0 < interval) :
    (startedState interval).presented = [0] ∧
    (startedState interval).current_image_index = 0 ∧
    (startedState interval).timerArmed = true ∧
    (∀ k : ℕ, k ≤ 7 →
      (ticksN k (startedState interval)).current_image_index = (k : ℤ) ∧
      (ticksN k (startedState interval)).presented = (List.range (k + 1)).map Int.ofNat ∧
      (ticksN k (startedState interval)).timerArmed = true) ∧
    (ticksN 8 (startedState interval)).presented = (List.range 8).map Int.ofNat ∧
    (ticksN 8 (startedState interval)).timerArmed = false ∧
    (ticksN 8 (startedState interval)).closed = true := by
  have h0 := startedState_eq interval h
  have h8 : ticksN 8 (startedState interval) =
      ⟨8, 8, interval, false, truncToInt (interval * 1000), true,
        (List.range 8).map Int.ofNat⟩ := by
    rw [show (8 : ℕ) = 7 + 1 from rfl, ticksN, Function.iterate_succ_apply']
    rw [show tick^[7] (startedState interval) = ticksN 7 (startedState interval) from rfl]
    rw [ticksN_startedState interval h 7 (by norm_num)]
    rw [tick, handleEvent, if_pos rfl, show_next_image]
    dsimp only
    rw [if_pos (by omega)]
    rfl
  refine ⟨by rw [h0], by rw [h0], by rw [h0], ?_, by rw [h8], by rw [h8], by rw [h8]⟩
  intro k hk
  rw [ticksN_startedState interval h k hk]
  exact ⟨rfl, rfl, rfl⟩

/-- C7 witness: with the concrete interval 1, eight ticks present exactly the
indices 0..7 and leave the controller stopped with the timer disarmed. -/
theorem controller_run_c7_witness :
    (ticksN 8 (startedState 1)).presented = (List.range 8).map Int.ofNat ∧
    (ticksN 8 (startedState 1)).timerArmed = false ∧
    (ticksN 8 (startedState 1)).closed = true :=
  ⟨(controller_run_c7 1 (by norm_num)).2.2.2.2.1,
   (controller_run_c7 1 (by norm_num)).2.2.2.2.2.1,
   (controller_run_c7 1 (by norm_num)).2.2.2.2.2.2⟩

/-- C8: a cancel key (Q or Escape) processed while image i < 7 is current
immediately stops the controller — timer disarmed, window closed, the
presented log still exactly 0..i — and whatever events are processed
afterwards (queued ticks included), nothing further is presented: every
presented index stays at most i. -/
theorem cancel_c8 (interval : ℚ) (h : 0 < interval) (i : ℕ) (hi : i < 7)
    (key : Key) (hkey : key = Key.key_Q ∨ key = Key.key_Escape) :
    (keyPressEvent key (ticksN i (startedState interval))).timerArmed = false ∧
    (keyPressEvent key (ticksN i (startedState interval))).closed = true ∧
    (keyPressEvent key (ticksN i (startedState interval))).presented
        = (List.range (i + 1)).map Int.ofNat ∧
    ∀ evs : List Event,
      (processEvents evs (keyPressEvent key (ticksN i (startedState interval)))).presented
          = (List.range (i + 1)).map Int.ofNat ∧
      ∀ j ∈ (processEvents evs
          (keyPressEvent key (ticksN i (startedState interval)))).presented,
        j ≤ (i : ℤ) := by
  have htr := ticksN_startedState interval h i (by omega)
  rw [htr, keyPressEvent, if_pos hkey]
  refine ⟨rfl, rfl, rfl, ?_⟩
  intro evs
  have hstuck := processEvents_not_armed evs
    ({ timer_stop ⟨(i : ℤ), 8, interval, true, truncToInt (interval * 1000), false,
        (List.range (i + 1)).map Int.ofNat⟩ with closed := true }) rfl
  refine ⟨hstuck.1, ?_⟩
  intro j hj
  rw [hstuck.1] at hj
  simp only [timer_stop, List.mem_map, List.mem_range] at hj
  obtain ⟨m, hm, hjm⟩ := hj
  rw [← hjm]
  exact Int.ofNat_le.mpr (Nat.lt_succ_iff.mp hm)

/-- C8 witness: cancelling with Q after 3 ticks of a run with interval 1
disarms the timer, and one more queued tick presents nothing beyond 0..3. -/
theorem cancel_c8_witness :
    (keyPressEvent Key.key_Q (ticksN 3 (startedState 1))).timerArmed = false ∧
    (processEvents [Event.timerTimeout]
        (keyPressEvent Key.key_Q (ticksN 3 (startedState 1)))).presented
      = (List.range 4).map Int.ofNat :=
  ⟨(cancel_c8 1 (by norm_num) 3 (by norm_num) Key.key_Q (Or.inl rfl)).1,
   ((cancel_c8 1 (by norm_num) 3 (by norm_num) Key.key_Q (Or.inl rfl)).2.2.2
      [Event.timerTimeout]).1⟩

/-- C9: pattern generation is deterministic: it is embedded as a pure
function of shape, orientation and phase shift — the source reads no state
besides its arguments and uses no randomness — so two calls with identical
arguments yield identical phase maps, identical rendered images and an
identical sequence, definitionally. -/
theorem generation_deterministic_c9 (shape : ℕ × ℕ) (orientation : String)
    (phase_shift : ℝ) :
    generate_sinusoidal_fringe_pattern shape 1 1 orientation
        = generate_sinusoidal_fringe_pattern shape 1 1 orientation ∧
    render_one shape orientation phase_shift
        = render_one shape orientation phase_shift ∧
    prepare_images shape.1 shape.2 = prepare_images shape.1 shape.2 :=
  ⟨rfl, rfl, rfl⟩

/-- C10: presenting an index outside [0, len(sequence)) is a silent no-op:
`show_image` falls through its range guard, presents nothing, raises nothing
and leaves the whole state unchanged. -/
theorem show_image_out_of_range_c10 (s : ControllerState) (index : ℤ)
    (h : index < 0 ∨ (s.numImages : ℤ) ≤ index) :
    show_image index s = s := by
  rw [show_image, if_neg]
  rintro ⟨h1, h2⟩
  rcases h with h | h <;> omega

/-- C10 witness: index 8 with 8 prepared images changes nothing. -/
theorem show_image_out_of_range_c10_witness :
    show_image 8 (initState 8) = initState 8 :=
  show_image_out_of_range_c10 (initState 8) 8 (Or.inr (by norm_num [initState]))

end FringeDisplay
